import Mathlib

/-!
Verification of the Wisp backend core (WispAPI) against its specification.

The Python source is shallowly embedded: pure functions become Lean
functions, the Supabase tables touched by the token service become
explicit state values threaded through the functions, Python floats
become exact rationals, and Python exceptions become `Except` /
`Option` results.  Each section names the source file it embeds.
-/

namespace Wisp

/-! ## Polyline codec — embedding of `app/utils/coordinates.py`, `decode_polyline` -/

/-- `ord(ch) - 63`, the un-shifted chunk value of one byte of the encoding. -/
def chunkVal (c : Char) : Int := (c.toNat : Int) - 63

/-- `b & 0x1F` for the (possibly negative) Python int `b`: the low five bits,
which for any integer equal `b mod 32`. -/
def low5 (c : Char) : Nat := ((chunkVal c) % 32).toNat

/-- The byte terminates a component when its un-shifted value is below `0x20`
(source: `if b < 0x20: break`). -/
def isTerm (c : Char) : Bool := decide (chunkVal c < 32)

/-- The inner `while True` loop of `decode_polyline`: accumulate five-bit
chunks into `result` at increasing shifts until a byte below `0x20`; `none`
models the `IndexError` raised when the string runs out first. -/
def parseComponent : List Char → Nat → Nat → Option (Nat × List Char)
  | [], _, _ => none
  | c :: rest, shift, result =>
    let result' := result ||| (low5 c <<< shift)
    if chunkVal c < 32 then some (result', rest)
    else parseComponent rest (shift + 5) result'

/-- `~(result >> 1) if (result & 1) else (result >> 1)` with Python's
`~x = -x - 1` on arbitrary-precision ints. -/
def unzigzag (r : Nat) : Int :=
  if r &&& 1 ≠ 0 then -((r >>> 1 : Nat) : Int) - 1 else ((r >>> 1 : Nat) : Int)

/-- The outer `while index < len(encoded)` loop of `decode_polyline`:
alternate latitude and longitude components, keep running accumulators,
append `(lat / factor, lng / factor)` after each pair.  `fuel` bounds the
number of iterations; every iteration consumes at least two characters, so
`fuel = length` always suffices and the `fuel = 0` branch is unreachable
from `decode_polyline`.  `none` models the `IndexError` → `ValueError`. -/
def decodeLoop : Nat → List Char → Int → Int → Int → Option (List (ℚ × ℚ))
  | _, [], _, _, _ => some []
  | 0, _ :: _, _, _, _ => none
  | fuel + 1, c :: cs, lat, lng, factor =>
    match parseComponent (c :: cs) 0 0 with
    | none => none
    | some (r1, rest1) =>
      match parseComponent rest1 0 0 with
      | none => none
      | some (r2, rest2) =>
        let lat' := lat + unzigzag r1
        let lng' := lng + unzigzag r2
        match decodeLoop fuel rest2 lat' lng' factor with
        | none => none
        | some tl => some ((Rat.divInt lat' factor, Rat.divInt lng' factor) :: tl)

/-- `decode_polyline(encoded, precision)`: returns the coordinate list, or
the `ValueError` raised when the string is truncated mid-component.  The
factor is `10 ** precision`, and each accumulator is divided by it exactly
(Python's `lat / factor` on floats denotes this rational value). -/
def decode_polyline (encoded : String) (precision : Nat) : Except String (List (ℚ × ℚ)) :=
  let chars := encoded.toList
  match decodeLoop chars.length chars 0 0 ((10 ^ precision : Nat) : Int) with
  | none => Except.error "Truncated or invalid encoded polyline."
  | some coords => Except.ok coords

/-! ### Specification-side decoder, written from the spec's algorithm text
(§4.8): split the input at each terminating byte, read each component's
value as its five-bit chunks weighted at increasing offsets, un-zigzag it
into a signed delta, accumulate, and divide each completed pair by
`10^precision`. -/

/-- Modelled from the spec: one coordinate component is the bytes up to and
including the first byte whose un-shifted value is below `0x20`; if the
string ends first, the component is incomplete. -/
def specSplit : List Char → Option (List Char × List Char)
  | [] => none
  | c :: cs =>
    if isTerm c then some ([c], cs)
    else (specSplit cs).map fun p => (c :: p.1, p.2)

/-- Modelled from the spec: the value of a component is the sum of its low
five-bit chunks weighted by increasing powers of `2^5`. -/
def specValue (chunks : List Char) : Nat :=
  chunks.foldr (fun c v => low5 c + 32 * v) 0

/-- Modelled from the spec: zigzag decoding of a non-negative accumulated
value into a signed delta. -/
def specDelta (v : Nat) : Int :=
  if v % 2 = 0 then ((v / 2 : Nat) : Int) else -(((v + 1) / 2 : Nat) : Int)

/-- Modelled from the spec: the alternating latitude/longitude decode loop. -/
def specLoop : Nat → List Char → Int → Int → Int → Option (List (ℚ × ℚ))
  | _, [], _, _, _ => some []
  | 0, _ :: _, _, _, _ => none
  | fuel + 1, c :: cs, lat, lng, factor =>
    match specSplit (c :: cs) with
    | none => none
    | some (chunks1, rest1) =>
      match specSplit rest1 with
      | none => none
      | some (chunks2, rest2) =>
        let lat' := lat + specDelta (specValue chunks1)
        let lng' := lng + specDelta (specValue chunks2)
        match specLoop fuel rest2 lat' lng' factor with
        | none => none
        | some tl => some ((Rat.divInt lat' factor, Rat.divInt lng' factor) :: tl)

/-- Modelled from the spec: the whole decoder as described in §4.8. -/
def decodeSpec (encoded : String) (precision : Nat) : Except String (List (ℚ × ℚ)) :=
  let chars := encoded.toList
  match specLoop chars.length chars 0 0 ((10 ^ precision : Nat) : Int) with
  | none => Except.error "Truncated or invalid encoded polyline."
  | some coords => Except.ok coords

/-- A string can be decoded completely iff it is empty, or its last byte
terminates a component and the number of terminating bytes (= number of
components) is even, so that components pair up into coordinates. -/
def wellFormedB (l : List Char) : Bool :=
  match l.getLast? with
  | none => true
  | some c => isTerm c && (l.countP (fun ch => isTerm ch)) % 2 == 0

instance {ε α : Type} [DecidableEq ε] [DecidableEq α] : DecidableEq (Except ε α) := fun x y =>
  match x, y with
  | .ok a, .ok b =>
    if h : a = b then .isTrue (by rw [h]) else .isFalse (by intro hh; cases hh; exact h rfl)
  | .error a, .error b =>
    if h : a = b then .isTrue (by rw [h]) else .isFalse (by intro hh; cases hh; exact h rfl)
  | .ok _, .error _ => .isFalse (by intro hh; cases hh)
  | .error _, .ok _ => .isFalse (by intro hh; cases hh)

/-! ## Token lifecycle — embedding of `app/services/strava_service.py`

The `user_oauth_connections` row for one `(user_id, "strava")` key is the
only state these functions read or write, so the database is embedded as
`Option TokenConn` (`none` = no row).  Times are seconds since the epoch as
integers; `datetime.utcnow()` is the explicit `now` argument. -/

/-- The columns of `user_oauth_connections` that `get_valid_access_token`
selects and `_refresh_access_token` updates. -/
structure TokenConn where
  access_token : String
  refresh_token : String
  token_expires_at : Option Int
  deriving DecidableEq

/-- The per-user `user_oauth_connections` table restricted to one user. -/
abbrev ConnDB := Option TokenConn

/-- The provider's response to the refresh POST: HTTP status plus the
optional fields of the JSON body (`token_data["access_token"]` raises
`KeyError` when absent, `token_data.get` defaults the others). -/
structure RefreshResponse where
  status : Nat
  access_token : Option String
  refresh_token : Option String
  expires_in : Option Int
  deriving DecidableEq

/-- An outbound refresh call either yields a response or raises a transport
exception (timeout, connection error), caught by the `except` block. -/
inductive ProviderResult where
  | ok (r : RefreshResponse)
  | transportError
  deriving DecidableEq

/-- `StravaConstants.TOKEN_EXPIRY_SECONDS` (`app/config.py`). -/
def TOKEN_EXPIRY_SECONDS : Int := 21600

/-- The five-minute refresh buffer, `timedelta(minutes=5)` in seconds
(`StravaConstants.REFRESH_BUFFER_SECONDS`). -/
def REFRESH_BUFFER_SECONDS : Int := 300

/-- `_clear_invalid_tokens`: delete the row for `(user_id, "strava")`. -/
def clear_invalid_tokens (_db : ConnDB) : ConnDB := none

/-- `_refresh_access_token(user_id, refresh_token)`: returns the new access
token (or `None`) together with the table after the call. -/
def refresh_access_token (now : Int) (refresh_token : String) (db : ConnDB)
    (resp : ProviderResult) : Option String × ConnDB :=
  match resp with
  | .transportError => (none, db)
  | .ok r =>
    if r.status ≠ 200 then
      if r.status = 400 ∨ r.status = 401 then (none, clear_invalid_tokens db)
      else (none, db)
    else
      match r.access_token with
      | none => (none, db)
      | some new_access =>
        let new_refresh := r.refresh_token.getD refresh_token
        let expires_in := r.expires_in.getD TOKEN_EXPIRY_SECONDS
        let expires_at := now + expires_in
        (some new_access,
          db.map fun c =>
            { c with access_token := new_access, refresh_token := new_refresh,
                     token_expires_at := some expires_at })

/-- The result of `get_valid_access_token`: the returned token, the table
afterwards, and how many refresh calls (network POSTs) were made. -/
structure GetTokenResult where
  token : Option String
  db : ConnDB
  refreshCalls : Nat
  deriving DecidableEq

/-- `get_valid_access_token(user_id)`: no row means `None` (NotConnected);
a row whose `token_expires_at` is more than the five-minute buffer away is
returned unchanged; otherwise (including a missing `token_expires_at`)
exactly one refresh call is made and its result returned. -/
def get_valid_access_token (now : Int) (db : ConnDB) (resp : ProviderResult) :
    GetTokenResult :=
  match db with
  | none => ⟨none, none, 0⟩
  | some conn =>
    match conn.token_expires_at with
    | some expires_at =>
      if expires_at ≤ now + REFRESH_BUFFER_SECONDS then
        let p := refresh_access_token now conn.refresh_token (some conn) resp
        ⟨p.1, p.2, 1⟩
      else ⟨some conn.access_token, some conn, 0⟩
    | none =>
      let p := refresh_access_token now conn.refresh_token (some conn) resp
      ⟨p.1, p.2, 1⟩

/-- The branch condition of `get_valid_access_token` that triggers a
refresh: `token_expires_at` absent, or `expires_at <= now + buffer`. -/
def needsRefreshB (conn : TokenConn) (now : Int) : Bool :=
  match conn.token_expires_at with
  | none => true
  | some t => decide (t ≤ now + REFRESH_BUFFER_SECONDS)

/-! ## OAuth state store — embedding of `app/routers/strava.py`,
`handle_strava_callback` (lines 102–155) over the `oauth_states` dict. -/

/-- The `OAuthState` pydantic model (`app/models/strava.py`). -/
structure OAuthStateRec where
  state_token : String
  user_id : String
  code_verifier : String
  created_at : Int
  expires_at : Int
  deriving DecidableEq

/-- The `oauth_states` dict: keys are state tokens (unique in a dict). -/
abbrev StateStore := List (String × OAuthStateRec)

/-- `state in oauth_states` / `oauth_states[state]`. -/
def stateLookup : StateStore → String → Option OAuthStateRec
  | [], _ => none
  | p :: ps, k => if p.1 = k then some p.2 else stateLookup ps k

/-- `del oauth_states[state]`. -/
def stateDelete : StateStore → String → StateStore
  | [], _ => []
  | p :: ps, k => if p.1 = k then stateDelete ps k else p :: stateDelete ps k

/-- The errors `handle_strava_callback` can surface for the consume path:
`400 Invalid or expired state token`, `400 State token expired`, and the
propagated failure of the token exchange / store step. -/
inductive CallbackError where
  | invalidState
  | expiredState
  | exchangeFailed
  deriving DecidableEq

/-- The state-consuming skeleton of `handle_strava_callback`: membership
check, expiry check (deleting the entry), then the exchange-and-store step
(summarised by `exchange_ok`; on its failure the raised `HTTPException`
propagates and the entry is *not* deleted), then `del oauth_states[state]`. -/
def handle_strava_callback (now : Int) (store : StateStore) (token : String)
    (exchange_ok : Bool) : Except CallbackError Unit × StateStore :=
  match stateLookup store token with
  | none => (Except.error CallbackError.invalidState, store)
  | some st =>
    if now > st.expires_at then
      (Except.error CallbackError.expiredState, stateDelete store token)
    else if exchange_ok then (Except.ok (), stateDelete store token)
    else (Except.error CallbackError.exchangeFailed, store)

/-! ## Activity sync — embedding of `app/services/strava_service.py`,
`sync_recent_activities`, `_store_activities_in_database`,
`_store_route_data`.  Python floats are exact rationals; a raised
exception is an `Except.error` carrying the exception's name. -/

/-- The fields of the `StravaActivity` pydantic model that the sync path
reads. -/
structure StravaActivity where
  id : Int
  name : String
  description : Option String
  distance : ℚ
  moving_time : Int
  elapsed_time : Int
  total_elevation_gain : Option ℚ
  type : String
  start_date : String
  timezone : Option String
  average_speed : Option ℚ
  average_cadence : Option ℚ
  average_heartrate : Option ℚ
  max_heartrate : Option ℚ
  calories : Option ℚ
  start_latlng : Option (List ℚ)
  end_latlng : Option (List ℚ)
  polyline : Option String
  deriving DecidableEq

/-- One element of the `run_data` list built for the `runs` upsert. -/
structure RunRow where
  user_id : String
  external_id : String
  data_source : String
  title : String
  description : Option String
  distance : ℚ
  moving_time : Int
  elapsed_time : Int
  average_speed : Option ℚ
  average_pace : ℚ
  average_cadence : Option ℚ
  average_heart_rate : Option ℚ
  max_heart_rate : Option ℚ
  calories_burned : Option Int
  elevation_gain : Option ℚ
  started_at : String
  start_latitude : ℚ
  start_longitude : ℚ
  end_latitude : ℚ
  end_longitude : ℚ
  timezone : Option String
  deriving DecidableEq

/-- Exact value of Python float division `a / b`, as a rational. -/
def ratDiv (a b : ℚ) : ℚ := Rat.divInt (a.num * (b.den : Int)) ((a.den : Int) * b.num)

/-- Python `a / b`: raises `ZeroDivisionError` when `b == 0`. -/
def pyDiv (a b : ℚ) : Except String ℚ :=
  if b = 0 then Except.error "ZeroDivisionError" else Except.ok (ratDiv a b)

/-- Python subscript `xs[i]` on an optional list: `None[i]` raises
`TypeError`, an out-of-range index raises `IndexError`. -/
def pySubscript (l : Option (List ℚ)) (i : Nat) : Except String ℚ :=
  match l with
  | none => Except.error "TypeError"
  | some xs =>
    match xs.get? i with
    | none => Except.error "IndexError"
    | some v => Except.ok v

/-- Python truthiness of an optional float: `None` and `0.0` are falsy. -/
def pyTruthy (q : Option ℚ) : Bool :=
  match q with
  | none => false
  | some v => decide (v ≠ 0)

/-- Python `int(q)` on a float: truncation toward zero. -/
def pyInt (q : ℚ) : Int := if q < 0 then -((-q).floor) else q.floor

/-- One element of the `run_data` list comprehension in
`_store_activities_in_database`: the dict built for one activity, with the
expressions that can raise evaluated in source order. -/
def transform_activity (user_id : String) (a : StravaActivity) : Except String RunRow := do
  let pace ← pyDiv (a.moving_time : ℚ) (ratDiv a.distance 1000)
  let cal : Option Int :=
    if pyTruthy a.calories then some (pyInt (a.calories.getD 0)) else none
  let slat ← pySubscript a.start_latlng 0
  let slng ← pySubscript a.start_latlng 1
  let elat ← pySubscript a.end_latlng 0
  let elng ← pySubscript a.end_latlng 1
  Except.ok
    { user_id := user_id
      external_id := toString a.id
      data_source := "strava"
      title := a.name
      description := a.description
      distance := a.distance
      moving_time := a.moving_time
      elapsed_time := a.elapsed_time
      average_speed := a.average_speed
      average_pace := pace
      average_cadence := a.average_cadence
      average_heart_rate := a.average_heartrate
      max_heart_rate := a.max_heartrate
      calories_burned := cal
      elevation_gain := a.total_elevation_gain
      started_at := a.start_date
      start_latitude := slat
      start_longitude := slng
      end_latitude := elat
      end_longitude := elng
      timezone := a.timezone }

/-- A Python list comprehension `[f(x) for x in xs]` where `f` may raise:
elements are evaluated left to right and the first exception aborts the
whole comprehension. -/
def pyMap (f : α → Except String β) : List α → Except String (List β)
  | [] => Except.ok []
  | x :: xs =>
    match f x with
    | Except.error e => Except.error e
    | Except.ok y =>
      match pyMap f xs with
      | Except.error e => Except.error e
      | Except.ok ys => Except.ok (y :: ys)

/-- A row of the upsert response for the `runs` table: the store-assigned
primary key `id` and the row's `external_id`. -/
structure StoredRunRow where
  id : String
  external_id : String
  deriving DecidableEq

/-- The `lookup` dict comprehension keyed on `str(item["external_id"])`;
with duplicate keys the later item wins, as in a Python dict. -/
def lookupRun : List StoredRunRow → String → Option StoredRunRow
  | [], _ => none
  | r :: rs, ext =>
    match lookupRun rs ext with
    | some x => some x
    | none => if r.external_id = ext then some r else none

/-- The `poly_data` list: `[run id, polyline]` for every activity whose id
appears in the upsert response. -/
def polyData (activities : List StravaActivity) (rows : List StoredRunRow) :
    List (String × Option String) :=
  activities.filterMap fun a =>
    (lookupRun rows (toString a.id)).map fun row => (row.id, a.polyline)

/-- One row of the `run_routes` upsert built by `_store_route_data`. -/
structure RouteRow where
  run_id : String
  encoded_polyline : Option String
  coordinates : List (ℚ × ℚ)
  total_points : Nat
  deriving DecidableEq

/-- `decode_polyline(polys[1])` where `polys[1]` may be `None`
(`len(None)` raises `TypeError`). -/
def decodePolyField : Option String → Except String (List (ℚ × ℚ))
  | none => Except.error "TypeError"
  | some s => decode_polyline s 5

/-- One element of the `route_data` list comprehension in
`_store_route_data`: `total_points` is the literal `0` from the source. -/
def routeRowOf (polys : String × Option String) : Except String RouteRow :=
  match decodePolyField polys.2 with
  | Except.error e => Except.error e
  | Except.ok coords => Except.ok (RouteRow.mk polys.1 polys.2 coords 0)

/-- `_store_route_data(upsert_data)`: builds the `route_data` rows and
upserts them; any exception is caught and logged, so either all rows are
written (`some rows`) or none (`none`), and nothing propagates. -/
def store_route_data (upsert_data : List (String × Option String)) :
    Option (List RouteRow) :=
  match pyMap routeRowOf upsert_data with
  | Except.error _ => none
  | Except.ok rows => some rows

/-- What `_store_activities_in_database` wrote and what its caller sees:
rows upserted into `runs` (`none` = the upsert was never reached or
failed), rows upserted into `run_routes`, and the call's own outcome —
always `ok` because its `except` block logs without re-raising. -/
structure StoreOutcome where
  runsWritten : Option (List StoredRunRow)
  routesWritten : Option (List RouteRow)
  callResult : Except String Unit
  deriving DecidableEq

/-- The upsert-and-routes tail of `_store_activities_in_database`, from
the `runs` upsert on: a raising upsert is caught (nothing written, `ok`
result); a successful upsert writes the runs and then the routes. -/
def storeUpsert (activities : List StravaActivity)
    (upsertRuns : List RunRow → Except String (List StoredRunRow))
    (run_data : List RunRow) : StoreOutcome :=
  match upsertRuns run_data with
  | Except.error _ => ⟨none, none, Except.ok ()⟩
  | Except.ok rows =>
    ⟨some rows, store_route_data (polyData activities rows), Except.ok ()⟩

/-- `_store_activities_in_database(user_id, activities)`.  `upsertRuns`
stands for the Supabase `runs` upsert: it returns the upserted rows or
raises. -/
def store_activities_in_database (user_id : String)
    (activities : List StravaActivity)
    (upsertRuns : List RunRow → Except String (List StoredRunRow)) :
    StoreOutcome :=
  match pyMap (transform_activity user_id) activities with
  | Except.error _ => ⟨none, none, Except.ok ()⟩
  | Except.ok run_data => storeUpsert activities upsertRuns run_data

/-- `sync_recent_activities(user_id, limit)` after a successful fetch:
re-raises whatever the storage step raises (which is nothing, since the
storage step swallows its own errors) and otherwise reports success. -/
def sync_recent_activities (user_id : String) (activities : List StravaActivity)
    (upsertRuns : List RunRow → Except String (List StoredRunRow)) :
    Except String Unit :=
  (store_activities_in_database user_id activities upsertRuns).callResult

/-! ### Concrete fixtures used by several claims -/

/-- A well-formed run: `distance = 1000`, `moving_time = 300`. -/
def goodAct : StravaActivity :=
  { id := 1001, name := "Morning Run", description := none, distance := 1000,
    moving_time := 300, elapsed_time := 320, total_elevation_gain := some 5,
    type := "Run", start_date := "2025-08-09T04:31:04",
    timezone := some "(GMT+02:00) Europe/Athens", average_speed := some 3,
    average_cadence := none, average_heartrate := none, max_heartrate := none,
    calories := none, start_latlng := some [37, 26], end_latlng := some [36, 26],
    polyline := some "_p~iF~ps|U" }

/-- A zero-distance activity, otherwise fully populated. -/
def zeroAct : StravaActivity :=
  { id := 1002, name := "Treadmill", description := none, distance := 0,
    moving_time := 300, elapsed_time := 300, total_elevation_gain := some 0,
    type := "Run", start_date := "2025-08-09T05:00:00",
    timezone := some "(GMT+02:00) Europe/Athens", average_speed := some 0,
    average_cadence := none, average_heartrate := none, max_heartrate := none,
    calories := none, start_latlng := some [37, 26], end_latlng := some [37, 26],
    polyline := none }

/-- A `runs` upsert that succeeds and assigns each row an id. -/
def okUpsert : List RunRow → Except String (List StoredRunRow) :=
  fun rows => Except.ok (rows.map fun r => StoredRunRow.mk (r.external_id ++ "-run") r.external_id)

/-- A `runs` upsert that raises. -/
def failUpsert : List RunRow → Except String (List StoredRunRow) :=
  fun _ => Except.error "upsert failed"

/-! ## Lemmas about the polyline codec -/

theorem low5_lt (c : Char) : low5 c < 32 := by
  unfold low5
  have h0 := Int.emod_nonneg (chunkVal c) (by decide : (32 : Int) ≠ 0)
  have h1 := Int.emod_lt_of_pos (chunkVal c) (by decide : (0 : Int) < 32)
  omega

theorem lor_shiftLeft_of_lt {a : Nat} (b s : Nat) (h : a < 2 ^ s) :
    a ||| (b <<< s) = b * 2 ^ s + a := by
  rw [Nat.shiftLeft_eq, Nat.lor_comm, Nat.mul_comm b (2 ^ s),
    ← Nat.mul_add_lt_is_or h b]

theorem specValue_cons (c : Char) (l : List Char) :
    specValue (c :: l) = low5 c + 32 * specValue l := rfl

theorem parseComponent_eq_spec :
    ∀ (l : List Char) (s a : Nat), a < 2 ^ s →
      parseComponent l s a
        = (specSplit l).map fun p => (specValue p.1 * 2 ^ s + a, p.2) := by
  intro l
  induction l with
  | nil => intro s a _; rfl
  | cons c cs ih =>
    intro s a ha
    by_cases hc : chunkVal c < 32
    · have hterm : isTerm c = true := by simp [isTerm, hc]
      simp only [parseComponent, specSplit, hterm, if_pos hc, if_true,
        Option.map_some', specValue_cons, specValue]
      rw [lor_shiftLeft_of_lt (low5 c) s ha]
      simp [Nat.mul_comm]
    · have hterm : isTerm c = false := by simp [isTerm, hc]
      have hlt : a ||| (low5 c <<< s) < 2 ^ (s + 5) := by
        rw [lor_shiftLeft_of_lt (low5 c) s ha]
        have h5 := low5_lt c
        have hp : 2 ^ (s + 5) = 2 ^ s * 32 := by rw [pow_add]; norm_num
        nlinarith [Nat.pos_pow_of_pos s (by norm_num : 0 < 2)]
      simp only [parseComponent, specSplit, hterm, if_neg hc, Bool.false_eq_true,
        if_false]
      rw [ih (s + 5) _ hlt]
      cases hs : specSplit cs with
      | none => simp
      | some p =>
        simp only [Option.map_some']
        congr 1
        rw [lor_shiftLeft_of_lt (low5 c) s ha, specValue_cons]
        have hp : 2 ^ (s + 5) = 2 ^ s * 32 := by rw [pow_add]; norm_num
        rw [hp]; ring_nf

theorem unzigzag_eq_specDelta (r : Nat) : unzigzag r = specDelta r := by
  unfold unzigzag specDelta
  have hand : r &&& 1 = r % 2 := Nat.and_one_is_mod r
  have hshift : r >>> 1 = r / 2 := by
    rw [Nat.shiftRight_eq_div_pow, pow_one]
  rw [hand, hshift]
  rcases Nat.mod_two_eq_zero_or_one r with h | h <;> simp [h] <;> omega

theorem parseComponent_none_iff :
    ∀ (l : List Char) (s a : Nat),
      parseComponent l s a = none ↔ l.countP (fun c => isTerm c) = 0 := by
  intro l
  induction l with
  | nil => intro s a; simp [parseComponent]
  | cons c cs ih =>
    intro s a
    by_cases hc : chunkVal c < 32
    · have hterm : isTerm c = true := by simp [isTerm, hc]
      simp [parseComponent, if_pos hc, List.countP_cons, hterm]
    · have hterm : isTerm c = false := by simp [isTerm, hc]
      simp [parseComponent, if_neg hc, List.countP_cons, hterm, ih]

theorem parseComponent_some_facts :
    ∀ (l : List Char) (s a : Nat) (r : Nat) (rest : List Char),
      parseComponent l s a = some (r, rest) →
      rest.length < l.length
      ∧ l.countP (fun c => isTerm c) = rest.countP (fun c => isTerm c) + 1
      ∧ (rest = [] → ∃ t, l.getLast? = some t ∧ isTerm t = true)
      ∧ (rest ≠ [] → l.getLast? = rest.getLast?) := by
  intro l
  induction l with
  | nil => intro s a r rest h; exact absurd h (by simp [parseComponent])
  | cons c cs ih =>
    intro s a r rest h
    by_cases hc : chunkVal c < 32
    · have hterm : isTerm c = true := by simp [isTerm, hc]
      simp only [parseComponent, if_pos hc, Option.some.injEq, Prod.mk.injEq] at h
      obtain ⟨hr, hrest⟩ := h
      subst hrest
      refine ⟨by simp, by simp [List.countP_cons, hterm], ?_, ?_⟩
      · rintro rfl
        exact ⟨c, rfl, hterm⟩
      · intro hne
        cases cs with
        | nil => exact absurd rfl hne
        | cons d ds => exact List.getLast?_cons_cons
    · have hterm : isTerm c = false := by simp [isTerm, hc]
      simp only [parseComponent, if_neg hc] at h
      obtain ⟨hlen, hcount, hnil, hne⟩ := ih (s + 5) _ r rest h
      have hcs : cs ≠ [] := by
        rintro rfl
        simp [parseComponent] at h
      have hlast : (c :: cs).getLast? = cs.getLast? := by
        cases cs with
        | nil => exact absurd rfl hcs
        | cons d ds => exact List.getLast?_cons_cons
      refine ⟨by simpa using Nat.lt_succ_of_lt hlen,
        by simp [List.countP_cons, hterm, hcount], ?_, ?_⟩
      · intro hrest
        obtain ⟨t, ht, htt⟩ := hnil hrest
        exact ⟨t, hlast.trans ht, htt⟩
      · intro hrest
        exact hlast.trans (hne hrest)

theorem wellFormedB_of_getLast (l : List Char) (t : Char)
    (h : l.getLast? = some t) :
    wellFormedB l = (isTerm t && (l.countP (fun c => isTerm c)) % 2 == 0) := by
  unfold wellFormedB
  rw [h]

theorem wellFormedB_false_of_no_term (l : List Char) (hne : l ≠ [])
    (h : l.countP (fun c => isTerm c) = 0) : wellFormedB l = false := by
  obtain ⟨t, ht⟩ := Option.ne_none_iff_exists'.mp
    (mt List.getLast?_eq_none_iff.mp hne)
  rw [wellFormedB_of_getLast l t ht]
  have hmem : t ∈ l := List.mem_of_mem_getLast? (show t ∈ l.getLast? from ht)
  have : isTerm t = false := by
    have := List.countP_eq_zero.mp h t hmem
    simpa using this
  simp [this]

theorem decodeLoop_isSome :
    ∀ (fuel : Nat) (l : List Char) (lat lng factor : Int),
      l.length ≤ fuel →
      (decodeLoop fuel l lat lng factor).isSome = wellFormedB l := by
  intro fuel
  induction fuel with
  | zero =>
    intro l lat lng factor hl
    have : l = [] := List.eq_nil_of_length_eq_zero (Nat.le_zero.mp hl)
    subst this
    rfl
  | succ n ih =>
    intro l lat lng factor hl
    cases l with
    | nil => rfl
    | cons c cs =>
      cases h1 : parseComponent (c :: cs) 0 0 with
      | none =>
        have hcnt := (parseComponent_none_iff (c :: cs) 0 0).mp h1
        rw [wellFormedB_false_of_no_term (c :: cs) (by simp) hcnt]
        simp [decodeLoop, h1]
      | some v1 =>
        obtain ⟨r1, rest1⟩ := v1
        obtain ⟨hlen1, hcnt1, hnil1, hne1⟩ :=
          parseComponent_some_facts (c :: cs) 0 0 r1 rest1 h1
        cases h2 : parseComponent rest1 0 0 with
        | none =>
          have hcnt2 := (parseComponent_none_iff rest1 0 0).mp h2
          have hone : (c :: cs).countP (fun ch => isTerm ch) = 1 := by
            omega
          obtain ⟨t, ht⟩ := Option.ne_none_iff_exists'.mp
            (mt List.getLast?_eq_none_iff.mp (by simp : (c :: cs) ≠ []))
          rw [wellFormedB_of_getLast (c :: cs) t ht, hone]
          simp [decodeLoop, h1, h2]
        | some v2 =>
          obtain ⟨r2, rest2⟩ := v2
          obtain ⟨hlen2, hcnt2, hnil2, hne2⟩ :=
            parseComponent_some_facts rest1 0 0 r2 rest2 h2
          have hrest1 : rest1 ≠ [] := by
            rintro rfl
            simp [parseComponent] at h2
          have hlast1 : (c :: cs).getLast? = rest1.getLast? := hne1 hrest1
          have hfuel : rest2.length ≤ n := by
            simp only [List.length_cons] at hl hlen1
            omega
          have hrec := ih rest2 (lat + unzigzag r1) (lng + unzigzag r2) factor hfuel
          have hstep :
              (decodeLoop (n + 1) (c :: cs) lat lng factor).isSome
              = (decodeLoop n rest2 (lat + unzigzag r1) (lng + unzigzag r2) factor).isSome := by
            simp only [decodeLoop, h1, h2]
            cases decodeLoop n rest2 (lat + unzigzag r1) (lng + unzigzag r2) factor <;> rfl
          rw [hstep, hrec]
          cases hrest2 : rest2 with
          | nil =>
            obtain ⟨t2, ht2, htt2⟩ := hnil2 hrest2
            rw [wellFormedB_of_getLast (c :: cs) t2 (hlast1.trans ht2)]
            have htwo : (c :: cs).countP (fun ch => isTerm ch) = 2 := by
              rw [hrest2] at hcnt2
              simp only [List.countP_nil] at hcnt2
              omega
            simp [htwo, htt2, wellFormedB]
          | cons d ds =>
            have hne : rest2 ≠ [] := by rw [hrest2]; simp
            have hlast2 : rest1.getLast? = rest2.getLast? := hne2 hne
            obtain ⟨t, ht⟩ := Option.ne_none_iff_exists'.mp
              (mt List.getLast?_eq_none_iff.mp hne)
            rw [← hrest2]
            rw [wellFormedB_of_getLast (c :: cs) t ((hlast1.trans hlast2).trans ht),
              wellFormedB_of_getLast rest2 t ht]
            have hc2 : (c :: cs).countP (fun ch => isTerm ch)
                = rest2.countP (fun ch => isTerm ch) + 2 := by omega
            rw [hc2]
            have hmod : (rest2.countP (fun ch => isTerm ch) + 2) % 2
                = rest2.countP (fun ch => isTerm ch) % 2 := Nat.add_mod_right _ 2
            rw [hmod]

theorem decodeLoop_eq_specLoop :
    ∀ (fuel : Nat) (l : List Char) (lat lng factor : Int),
      decodeLoop fuel l lat lng factor = specLoop fuel l lat lng factor := by
  intro fuel
  induction fuel with
  | zero => intro l lat lng factor; cases l <;> rfl
  | succ n ih =>
    intro l lat lng factor
    cases l with
    | nil => rfl
    | cons c cs =>
      have hp1 := parseComponent_eq_spec (c :: cs) 0 0 (by norm_num)
      simp only [pow_zero, Nat.mul_one, Nat.add_zero] at hp1
      simp only [decodeLoop, specLoop]
      rw [hp1]
      cases hs1 : specSplit (c :: cs) with
      | none => rfl
      | some p1 =>
        obtain ⟨chunks1, rest1⟩ := p1
        have hp2 := parseComponent_eq_spec rest1 0 0 (by norm_num)
        simp only [pow_zero, Nat.mul_one, Nat.add_zero] at hp2
        simp only [Option.map_some']
        rw [hp2]
        cases hs2 : specSplit rest1 with
        | none => rfl
        | some p2 =>
          obtain ⟨chunks2, rest2⟩ := p2
          simp only [Option.map_some', unzigzag_eq_specDelta, ih]

/-! ## Lemmas about the OAuth state store and the route rows -/

theorem stateLookup_stateDelete : ∀ (store : StateStore) (k : String),
    stateLookup (stateDelete store k) k = none := by
  intro store k
  induction store with
  | nil => rfl
  | cons p ps ih =>
    by_cases hp : p.1 = k
    · simp [stateDelete, hp, ih]
    · simp [stateDelete, stateLookup, hp, ih]

theorem route_rows_built_zero :
    ∀ (l : List (String × Option String)) (rows : List RouteRow),
      pyMap routeRowOf l = Except.ok rows →
      ∀ row ∈ rows, row.total_points = 0 := by
  intro l
  induction l with
  | nil =>
    intro rows h row hrow
    simp [pyMap] at h
    subst h
    exact absurd hrow (List.not_mem_nil row)
  | cons p ps ih =>
    intro rows h row hrow
    cases hd : decodePolyField p.2 with
    | error e =>
      have : routeRowOf p = Except.error e := by simp [routeRowOf, hd]
      simp [pyMap, this] at h
    | ok coords =>
      have hf : routeRowOf p = Except.ok (RouteRow.mk p.1 p.2 coords 0) := by
        simp [routeRowOf, hd]
      cases hm : pyMap routeRowOf ps with
      | error e => simp [pyMap, hf, hm] at h
      | ok rs =>
        simp only [pyMap, hf, hm] at h
        cases h
        rcases List.mem_cons.mp hrow with rfl | htail
        · rfl
        · exact ih rs hm row htail

/-! ## The claims -/

/-- C1: the spec requires `average_pace = moving_time / (distance / 1000)`
to be computed only when `distance > 0`, with a zero-distance activity
assigned no pace and no divide-by-zero fault.  The code computes the
quotient unconditionally: a zero-distance activity raises
`ZeroDivisionError` (the spec's intent is clear, the code is a slip).  The
positive half of the claim holds: `distance = 1000`, `moving_time = 300`
gives `average_pace = 300`. -/
theorem pace_divide_by_zero_bug :
    transform_activity "user-1" zeroAct = Except.error "ZeroDivisionError"
    ∧ (transform_activity "user-1" goodAct).map (fun row => row.average_pace)
        = Except.ok 300 :=
  ⟨by decide, by decide⟩

/-- C2: a token refresh answered with provider status 400 or 401 deletes
the `TokenConnection` row, the call reports no token (NotConnected), and
every subsequent `get_valid_access_token` on the resulting state also
reports NotConnected until the user re-authorizes. -/
theorem token_rejection_disconnects (now : Int) (conn : TokenConn)
    (r : RefreshResponse) (hneed : needsRefreshB conn now = true)
    (hst : r.status = 400 ∨ r.status = 401) :
    (get_valid_access_token now (some conn) (ProviderResult.ok r)).token = none
    ∧ (get_valid_access_token now (some conn) (ProviderResult.ok r)).db = none
    ∧ ∀ (now2 : Int) (resp2 : ProviderResult),
        get_valid_access_token now2
          (get_valid_access_token now (some conn) (ProviderResult.ok r)).db resp2
          = ⟨none, none, 0⟩ := by
  have h200 : ¬ r.status = 200 := by rcases hst with h | h <;> omega
  have href : refresh_access_token now conn.refresh_token (some conn)
      (ProviderResult.ok r) = (none, none) := by
    simp [refresh_access_token, h200, hst, clear_invalid_tokens]
  cases hexp : conn.token_expires_at with
  | none =>
    refine ⟨?_, ?_, ?_⟩ <;> simp [get_valid_access_token, hexp, href]
  | some t =>
    have ht : t ≤ now + REFRESH_BUFFER_SECONDS := by
      simpa [needsRefreshB, hexp] using hneed
    refine ⟨?_, ?_, ?_⟩ <;> simp [get_valid_access_token, hexp, if_pos ht, href]

theorem token_rejection_disconnects_witness :
    (get_valid_access_token 0 (some (TokenConn.mk "acc" "ref" (some 100)))
        (ProviderResult.ok (RefreshResponse.mk 401 none none none))).token = none
    ∧ (get_valid_access_token 0 (some (TokenConn.mk "acc" "ref" (some 100)))
        (ProviderResult.ok (RefreshResponse.mk 401 none none none))).db = none
    ∧ get_valid_access_token 777
        (get_valid_access_token 0 (some (TokenConn.mk "acc" "ref" (some 100)))
          (ProviderResult.ok (RefreshResponse.mk 401 none none none))).db
        ProviderResult.transportError = ⟨none, none, 0⟩ :=
  have h := token_rejection_disconnects 0 (TokenConn.mk "acc" "ref" (some 100))
    (RefreshResponse.mk 401 none none none) (by decide) (Or.inr rfl)
  ⟨h.1, h.2.1, h.2.2 777 ProviderResult.transportError⟩

/-- C3: `get_valid_access_token` returns the stored access token unchanged
with zero refresh calls iff `token_expires_at` is present and strictly
later than `now + 5` minutes; when it is absent or at most `now + 5`
minutes, exactly one refresh call is made. -/
theorem token_buffer_validity (now : Int) (conn : TokenConn)
    (resp : ProviderResult) :
    (((get_valid_access_token now (some conn) resp).token = some conn.access_token
        ∧ (get_valid_access_token now (some conn) resp).db = some conn
        ∧ (get_valid_access_token now (some conn) resp).refreshCalls = 0)
      ↔ ∃ t, conn.token_expires_at = some t ∧ now + REFRESH_BUFFER_SECONDS < t)
    ∧ ((conn.token_expires_at = none
          ∨ ∃ t, conn.token_expires_at = some t ∧ t ≤ now + REFRESH_BUFFER_SECONDS)
        → (get_valid_access_token now (some conn) resp).refreshCalls = 1) := by
  cases hexp : conn.token_expires_at with
  | none =>
    constructor
    · constructor
      · rintro ⟨-, -, hcalls⟩
        simp [get_valid_access_token, hexp] at hcalls
      · rintro ⟨t, ht, -⟩
        exact Option.noConfusion ht
    · intro _
      simp [get_valid_access_token, hexp]
  | some t0 =>
    by_cases hle : t0 ≤ now + REFRESH_BUFFER_SECONDS
    · constructor
      · constructor
        · rintro ⟨-, -, hcalls⟩
          simp [get_valid_access_token, hexp, if_pos hle] at hcalls
        · rintro ⟨t, ht, hlt⟩
          injection ht with hh
          subst hh
          exact absurd hlt (by omega)
      · intro _
        simp [get_valid_access_token, hexp, if_pos hle]
    · constructor
      · constructor
        · intro _
          exact ⟨t0, rfl, by omega⟩
        · intro _
          simp [get_valid_access_token, hexp, if_neg hle]
      · rintro (hnone | ⟨t, ht, hle'⟩)
        · exact Option.noConfusion hnone
        · injection ht with hh
          subst hh
          exact absurd hle' hle

theorem token_buffer_validity_witness :
    ((get_valid_access_token 0 (some (TokenConn.mk "tok" "r" (some 600)))
          ProviderResult.transportError).token
        = some (TokenConn.mk "tok" "r" (some 600)).access_token
      ∧ (get_valid_access_token 0 (some (TokenConn.mk "tok" "r" (some 600)))
          ProviderResult.transportError).db = some (TokenConn.mk "tok" "r" (some 600))
      ∧ (get_valid_access_token 0 (some (TokenConn.mk "tok" "r" (some 600)))
          ProviderResult.transportError).refreshCalls = 0)
    ∧ (get_valid_access_token 0 (some (TokenConn.mk "tok" "r" (some 120)))
        ProviderResult.transportError).refreshCalls = 1 :=
  ⟨(token_buffer_validity 0 (TokenConn.mk "tok" "r" (some 600))
      ProviderResult.transportError).1.mpr ⟨600, rfl, by decide⟩,
   (token_buffer_validity 0 (TokenConn.mk "tok" "r" (some 120))
      ProviderResult.transportError).2 (Or.inr ⟨120, rfl, by decide⟩)⟩

/-- C4: in the OAuth state store, consuming a token that is not present
fails InvalidState; consuming a token whose expiry has passed fails
ExpiredState and removes the entry; consuming a live, unexpired token
succeeds exactly once, and a second consume with the same token fails
InvalidState. -/
theorem oauth_state_single_use (now : Int) (store : StateStore) (token : String) :
    (stateLookup store token = none →
        handle_strava_callback now store token true
          = (Except.error CallbackError.invalidState, store))
    ∧ (∀ st, stateLookup store token = some st → now > st.expires_at →
        handle_strava_callback now store token true
          = (Except.error CallbackError.expiredState, stateDelete store token)
        ∧ stateLookup (handle_strava_callback now store token true).2 token = none)
    ∧ (∀ st, stateLookup store token = some st → ¬ now > st.expires_at →
        (handle_strava_callback now store token true).1 = Except.ok ()
        ∧ ∀ (now2 : Int) (ex2 : Bool),
            (handle_strava_callback now2
              (handle_strava_callback now store token true).2 token ex2).1
              = Except.error CallbackError.invalidState) := by
  refine ⟨?_, ?_, ?_⟩
  · intro hnone
    simp [handle_strava_callback, hnone]
  · intro st hst hexp
    constructor
    · simp [handle_strava_callback, hst, if_pos hexp]
    · simp [handle_strava_callback, hst, if_pos hexp, stateLookup_stateDelete]
  · intro st hst hexp
    constructor
    · simp [handle_strava_callback, hst, if_neg hexp]
    · intro now2 ex2
      simp [handle_strava_callback, hst, if_neg hexp, stateLookup_stateDelete]

theorem oauth_state_single_use_witness :
    (handle_strava_callback 0
        [("tok-1", OAuthStateRec.mk "tok-1" "user-1" "ver" 0 100)] "tok-1" true).1
      = Except.ok ()
    ∧ (handle_strava_callback 999
        (handle_strava_callback 0
          [("tok-1", OAuthStateRec.mk "tok-1" "user-1" "ver" 0 100)] "tok-1" true).2
        "tok-1" true).1
      = Except.error CallbackError.invalidState :=
  have h := (oauth_state_single_use 0
      [("tok-1", OAuthStateRec.mk "tok-1" "user-1" "ver" 0 100)] "tok-1").2.2
    (OAuthStateRec.mk "tok-1" "user-1" "ver" 0 100) (by decide) (by decide)
  ⟨h.1, h.2 999 true⟩

/-- C5: the decoder agrees everywhere with the specification-side decoder
(zigzag-decoded variable-length deltas, latitude then longitude
alternating, accumulators starting at 0, each pair divided by
`10^precision`), and the fixture string decodes to exactly
`[(38.5, -120.2), (40.7, -120.95), (43.252, -126.453)]`
(as exact rationals, `385/10` etc.). -/
theorem polyline_decode_correct :
    (∀ (encoded : String) (precision : Nat),
        decode_polyline encoded precision = decodeSpec encoded precision)
    ∧ decode_polyline "_p~iF~ps|U_ulLnnqC_mqNvxq`@" 5
        = Except.ok [(Rat.divInt 385 10, Rat.divInt (-1202) 10),
            (Rat.divInt 407 10, Rat.divInt (-12095) 100),
            (Rat.divInt 43252 1000, Rat.divInt (-126453) 1000)] := by
  constructor
  · intro e p
    simp only [decode_polyline, decodeSpec, decodeLoop_eq_specLoop]
  · decide

/-- C6: decoding fails with the truncation error exactly when the encoded
string is exhausted in the middle of a coordinate component (its last byte
does not terminate a component, or the components do not pair up); no
partial coordinate list is ever returned. -/
theorem polyline_truncation_invalid :
    ∀ (encoded : String) (precision : Nat),
      (decode_polyline encoded precision
        = Except.error "Truncated or invalid encoded polyline.")
      ↔ wellFormedB encoded.toList = false := by
  intro e p
  have h := decodeLoop_isSome e.toList.length e.toList 0 0
    ((10 ^ p : Nat) : Int) (le_refl _)
  simp only [decode_polyline]
  cases hd : decodeLoop e.toList.length e.toList 0 0 ((10 ^ p : Nat) : Int) with
  | none =>
    rw [hd] at h
    simp only [Option.isSome_none] at h
    constructor
    · intro _
      exact h.symm
    · intro _
      rfl
  | some coords =>
    rw [hd] at h
    simp only [Option.isSome_some] at h
    constructor
    · intro hcontra
      exact Except.noConfusion hcontra
    · intro hwf
      rw [hwf] at h
      exact absurd h (by simp)

/-- C7: a successful refresh (status 200) persists the new access token,
`token_expires_at = now + expires_in` with `expires_in` defaulting to
`TOKEN_EXPIRY_SECONDS = 21600` when the response omits it, and the
response's refresh token, keeping the previously stored refresh token when
the response omits one. -/
theorem token_refresh_persists (now : Int) (conn : TokenConn)
    (r : RefreshResponse) (a : String)
    (hst : r.status = 200) (hacc : r.access_token = some a) :
    refresh_access_token now conn.refresh_token (some conn) (ProviderResult.ok r)
      = (some a,
         some { access_token := a,
                refresh_token := r.refresh_token.getD conn.refresh_token,
                token_expires_at :=
                  some (now + r.expires_in.getD TOKEN_EXPIRY_SECONDS) })
    ∧ TOKEN_EXPIRY_SECONDS = 21600
    ∧ (r.refresh_token = none →
        r.refresh_token.getD conn.refresh_token = conn.refresh_token)
    ∧ (∀ rt, r.refresh_token = some rt →
        r.refresh_token.getD conn.refresh_token = rt) := by
  refine ⟨?_, rfl, ?_, ?_⟩
  · simp [refresh_access_token, hst, hacc]
  · intro h
    simp [h]
  · intro rt h
    simp [h]

theorem token_refresh_persists_witness :
    refresh_access_token 10 (TokenConn.mk "a" "r0" (some 5)).refresh_token
        (some (TokenConn.mk "a" "r0" (some 5)))
        (ProviderResult.ok (RefreshResponse.mk 200 (some "na") none none))
      = (some "na", some (TokenConn.mk "na" "r0" (some 21610))) := by
  have h := (token_refresh_persists 10 (TokenConn.mk "a" "r0" (some 5))
      (RefreshResponse.mk 200 (some "na") none none) "na" rfl rfl).1
  simpa [TOKEN_EXPIRY_SECONDS] using h

/-- C8 (counterexample): for a transient provider failure (status 500) the
function's return value is the same `None` as for a user with no
connection at all, so the outcome is not distinct from NotConnected. -/
theorem token_transient_same_as_notconnected :
    (get_valid_access_token 0 (some (TokenConn.mk "acc" "ref" (some 0)))
        (ProviderResult.ok (RefreshResponse.mk 500 none none none))).token
      = (get_valid_access_token 0 none
          (ProviderResult.ok (RefreshResponse.mk 500 none none none))).token := by
  decide

/-- C8 (amended): on any refresh failure other than status 200, 400 or 401
— including transport failures — the stored row is left entirely
unchanged and `get_valid_access_token` returns no token; the preserved row
lets the caller retry later without re-authorization, though the returned
`None` is the same value as in the NotConnected case. -/
theorem token_refresh_transient_preserves (now : Int) (tok : String)
    (db : ConnDB) (resp : ProviderResult)
    (h : resp = ProviderResult.transportError
      ∨ ∃ r, resp = ProviderResult.ok r
          ∧ r.status ≠ 200 ∧ r.status ≠ 400 ∧ r.status ≠ 401) :
    refresh_access_token now tok db resp = (none, db)
    ∧ ∀ conn, db = some conn → needsRefreshB conn now = true →
        get_valid_access_token now db resp = ⟨none, db, 1⟩ := by
  have hrefAll : ∀ (tk : String) (dbx : ConnDB),
      refresh_access_token now tk dbx resp = (none, dbx) := by
    intro tk dbx
    rcases h with rfl | ⟨r, rfl, h200, h400, h401⟩
    · rfl
    · simp [refresh_access_token, h200, h400, h401]
  refine ⟨hrefAll tok db, ?_⟩
  rintro conn rfl hneed
  cases hexp : conn.token_expires_at with
  | none =>
    simp [get_valid_access_token, hexp, hrefAll]
  | some t =>
    have hle : t ≤ now + REFRESH_BUFFER_SECONDS := by
      simpa [needsRefreshB, hexp] using hneed
    simp [get_valid_access_token, hexp, if_pos hle, hrefAll]

theorem token_refresh_transient_preserves_witness :
    refresh_access_token 0 "ref" (some (TokenConn.mk "acc" "ref" (some 100)))
        (ProviderResult.ok (RefreshResponse.mk 503 none none none))
      = (none, some (TokenConn.mk "acc" "ref" (some 100)))
    ∧ get_valid_access_token 0 (some (TokenConn.mk "acc" "ref" (some 100)))
        (ProviderResult.ok (RefreshResponse.mk 503 none none none))
      = ⟨none, some (TokenConn.mk "acc" "ref" (some 100)), 1⟩ :=
  have h := token_refresh_transient_preserves 0 "ref"
    (some (TokenConn.mk "acc" "ref" (some 100)))
    (ProviderResult.ok (RefreshResponse.mk 503 none none none))
    (Or.inr ⟨RefreshResponse.mk 503 none none none, rfl,
      by decide, by decide, by decide⟩)
  ⟨h.1, h.2 (TokenConn.mk "acc" "ref" (some 100)) rfl (by decide)⟩

/-- C9 (counterexample): with one good and one zero-distance activity, the
storage step writes no runs and no routes at all (the good activity is not
skipped-around but lost), and with a failing `runs` upsert the sync call
still reports success. -/
theorem sync_partial_failure_cex :
    (store_activities_in_database "user-1" [goodAct, zeroAct] okUpsert).runsWritten
      = none
    ∧ (store_activities_in_database "user-1" [goodAct, zeroAct] okUpsert).routesWritten
      = none
    ∧ sync_recent_activities "user-1" [goodAct] failUpsert = Except.ok () :=
  ⟨by decide, by decide, by decide⟩

/-- C9 (amended): an error while transforming any single activity aborts
the whole storage step — nothing is written to `runs` or `run_routes` —
and the error is swallowed; a failing batch upsert is likewise swallowed;
in every case the sync call reports success. -/
theorem sync_errors_swallowed :
    ∀ (user_id : String) (activities : List StravaActivity)
      (upsertRuns : List RunRow → Except String (List StoredRunRow)),
      sync_recent_activities user_id activities upsertRuns = Except.ok ()
      ∧ ((∃ e, pyMap (transform_activity user_id) activities = Except.error e) →
          store_activities_in_database user_id activities upsertRuns
            = ⟨none, none, Except.ok ()⟩)
      ∧ (∀ run_data,
          pyMap (transform_activity user_id) activities = Except.ok run_data →
          ∀ e, upsertRuns run_data = Except.error e →
          store_activities_in_database user_id activities upsertRuns
            = ⟨none, none, Except.ok ()⟩) := by
  intro uid acts up
  have hupsert : ∀ rd, (storeUpsert acts up rd).callResult = Except.ok () := by
    intro rd
    unfold storeUpsert
    cases up rd <;> rfl
  refine ⟨?_, ?_, ?_⟩
  · unfold sync_recent_activities store_activities_in_database
    cases pyMap (transform_activity uid) acts with
    | error e => rfl
    | ok rd => exact hupsert rd
  · rintro ⟨e, he⟩
    unfold store_activities_in_database
    rw [he]
  · intro rd hm e hu
    unfold store_activities_in_database
    rw [hm]
    show storeUpsert acts up rd = ⟨none, none, Except.ok ()⟩
    unfold storeUpsert
    rw [hu]

theorem sync_errors_swallowed_witness :
    store_activities_in_database "user-2" [goodAct, zeroAct] okUpsert
      = ⟨none, none, Except.ok ()⟩
    ∧ sync_recent_activities "user-2" [goodAct] failUpsert = Except.ok () :=
  ⟨(sync_errors_swallowed "user-2" [goodAct, zeroAct] okUpsert).2.1
      ⟨"ZeroDivisionError", by decide⟩,
   (sync_errors_swallowed "user-2" [goodAct] failUpsert).1⟩

/-- C10: every `RunRoute` row the route-storage step writes carries
`total_points = 0`, whatever its `encoded_polyline` decodes to. -/
theorem route_rows_total_points_zero :
    ∀ (upsert_data : List (String × Option String)) (rows : List RouteRow),
      store_route_data upsert_data = some rows →
      ∀ row ∈ rows, row.total_points = 0 := by
  intro ud rows h row hrow
  unfold store_route_data at h
  cases hm : pyMap routeRowOf ud with
  | error e =>
    rw [hm] at h
    exact Option.noConfusion h
  | ok rs =>
    rw [hm] at h
    injection h with hh
    subst hh
    exact route_rows_built_zero ud _ hm row hrow

theorem route_rows_total_points_zero_witness :
    (RouteRow.mk "run-1" (some "_p~iF~ps|U")
        [(Rat.divInt 385 10, Rat.divInt (-1202) 10)] 0).total_points = 0 :=
  route_rows_total_points_zero [("run-1", some "_p~iF~ps|U")]
    [RouteRow.mk "run-1" (some "_p~iF~ps|U")
      [(Rat.divInt 385 10, Rat.divInt (-1202) 10)] 0]
    (by decide) _ (by simp)

end Wisp
